import Mathlib

/-!
Shallow embedding of the Azure DNS provider
(`providers/azuredns/azureDnsProvider.go`) of dnscontrol.

Go conventions mapped to Lean:
* functions returning `(T, error)` become `T × Option AzureError`
  (error paths in the source return the zero value `nil` for `T`);
* `panic` in a pure helper becomes `Except AzureError`;
* pointer fields the code dereferences unconditionally are plain values;
  the one pointer the code checks for `nil` (`zone.ZoneProperties`) and the
  one it dereferences blindly but may be absent (`set.CnameRecord`) are
  `Option`;
* the remote API (already-fetched listings, the mutating calls inside
  `Correction.F` closures and `EnsureDomainExists`) is modelled by data:
  the provider carries the listing each zone would return, and a planned
  mutation is recorded as a `CorrectionOp` / `ZoneAction` value holding
  exactly the arguments the source passes to the SDK call.

Helpers from the `models` and `diff` packages of dnscontrol are not part of
the given source tree; each such definition is marked
`Modelled from the spec:` and follows the specification text.
-/

namespace AzureDns

/-- The `adns.RecordType` enumeration of the Azure SDK. -/
inductive RecordType where
  | A | AAAA | CAA | CNAME | MX | NS | PTR | SRV | TXT | SOA
deriving DecidableEq, Repr

/-- Go `adns.ARecord`. -/
structure ARecord where
  ipv4Address : String
deriving DecidableEq, Repr

/-- Go `adns.AaaaRecord`. -/
structure AaaaRecord where
  ipv6Address : String
deriving DecidableEq, Repr

/-- Go `adns.CnameRecord`. -/
structure CnameRecord where
  cname : String
deriving DecidableEq, Repr

/-- Go `adns.NsRecord`. -/
structure NsRecord where
  nsdname : String
deriving DecidableEq, Repr

/-- Go `adns.PtrRecord`. -/
structure PtrRecord where
  ptrdname : String
deriving DecidableEq, Repr

/-- Go `adns.TxtRecord`; `Value` is a `*[]string`. -/
structure TxtRecord where
  value : List String
deriving DecidableEq, Repr

/-- Go `adns.MxRecord`; `Preference` is an `*int32`. -/
structure MxRecord where
  preference : Int
  exchange : String
deriving DecidableEq, Repr

/-- Go `adns.SrvRecord`; the numeric fields are `*int32`. -/
structure SrvRecord where
  priority : Int
  weight : Int
  port : Int
  target : String
deriving DecidableEq, Repr

/-- Go `adns.CaaRecord`; `Flags` is an `*int32`. -/
structure CaaRecord where
  flags : Int
  tag : String
  value : String
deriving DecidableEq, Repr

/-- Go `adns.RecordSet` with its `RecordSetProperties` flattened in. `type` is the
native type string (`Microsoft.Network/dnszones/...` on sets read from the
API, the bare internal type on sets built by `recordToNative`). `ttl` models
the `*int64` TTL, `0` standing for the unset pointer of a freshly built set. -/
structure RecordSet where
  name : String
  type : String
  fqdn : String
  ttl : Int := 0
  aRecords : List ARecord := []
  aaaaRecords : List AaaaRecord := []
  cnameRecord : Option CnameRecord := none
  nsRecords : List NsRecord := []
  ptrRecords : List PtrRecord := []
  txtRecords : List TxtRecord := []
  mxRecords : List MxRecord := []
  srvRecords : List SrvRecord := []
  caaRecords : List CaaRecord := []
deriving DecidableEq, Repr

/-- Modelled from the spec: the `models.RecordConfig` structure is outside
the given source tree; the field set follows §3 (name, fully-qualified name,
type, TTL, target, and the structured attributes for MX/SRV/CAA/TXT-multi),
restricted to the fields this provider reads and writes. -/
structure RecordConfig where
  name : String := ""
  nameFQDN : String := ""
  type : String := ""
  target : String := ""
  ttl : Nat := 0
  txtStrings : List String := []
  mxPreference : Nat := 0
  srvPriority : Nat := 0
  srvWeight : Nat := 0
  srvPort : Nat := 0
  caaTag : String := ""
  caaFlag : Nat := 0
deriving DecidableEq, Repr

/-- Modelled from the spec: `models.RecordKey` is outside the given source
tree; a Record Key is the (fully-qualified name, type) pair (§3). -/
structure RecordKey where
  nameFQDN : String
  type : String
deriving DecidableEq, Repr

/-- Modelled from the spec: `rc.Key()` of the models package is outside the
given source tree; the Record Key of a record is its (fully-qualified name,
type) pair (§3). -/
def rcKey (rc : RecordConfig) : RecordKey := ⟨rc.nameFQDN, rc.type⟩

/-- Modelled from the spec: `models.DomainConfig` is outside the given
source tree; a domain configuration is the domain name plus the desired
records (§6). -/
structure DomainConfig where
  name : String
  records : List RecordConfig
deriving DecidableEq, Repr

/-- Modelled from the spec: `models.Nameserver` is outside the given source
tree; it carries one nameserver hostname (§4.5). -/
structure Nameserver where
  name : String
deriving DecidableEq, Repr

/-- Go `adns.Zone`: `name` is `*zone.Name`; `zoneProperties` models the
`ZoneProperties` pointer, carrying the `NameServers` list when present. -/
structure Zone where
  name : String
  zoneProperties : Option (List String)
deriving DecidableEq, Repr

/-- The errors the provider can surface. `errNoExist` is the source's
`errNoExist` type; `noRecordSetToDelete` is the `fmt.Errorf` of the pure
delete branch; `rtypeUnimplemented` stands for the `panic(errors.Errorf(
"rc.String rtype %v unimplemented", ...))` calls; `nilPointer` stands for a
nil-pointer dereference panic. -/
inductive AzureError where
  | errNoExist (domain : String)
  | noRecordSetToDelete (nameFQDN ty : String)
  | rtypeUnimplemented (rtype : String)
  | nilPointer (what : String)
deriving DecidableEq, Repr

/-- Go `azureDnsProvider`: the zone map keyed by trimmed domain name, plus the
resource group. `remoteSets` models what `recordsClient.ListAllByDNSZone`
returns for each zone name (the pre-fetched remote listing; the network layer
is out of scope). -/
structure AzureDnsProvider where
  zones : List (String × Zone)
  remoteSets : List (String × List RecordSet)
  resourceGroup : String
deriving DecidableEq, Repr

/-- Association-list lookup, modelling Go map indexing `m[k]`. -/
def assocLookup {α : Type} : List (String × α) → String → Option α
  | [], _ => none
  | p :: rest, d => if p.1 = d then some p.2 else assocLookup rest d

/-- Suffix test on strings, written over the character lists so that it
evaluates by reduction. -/
def strEndsWith (s suffix : String) : Bool := suffix.data.isSuffixOf s.data

/-- Drop the last `n` characters of a string, written over the character
lists so that it evaluates by reduction. -/
def strDropRight (s : String) (n : Nat) : String := ⟨s.data.take (s.data.length - n)⟩

/-- Go `strings.TrimSuffix(s, ".")`: drop one trailing dot when present. -/
def trimSuffixDot (s : String) : String :=
  if strEndsWith s "." then strDropRight s 1 else s

/-- Go conversion `uint32(i)` applied to an `int64` value. -/
def uint32OfInt64 (i : Int) : Nat := (i % 4294967296).toNat

/-- Go conversion `uint16(i)` applied to an `int32` value. -/
def uint16OfInt32 (i : Int) : Nat := (i % 65536).toNat

/-- Go conversion `uint8(i)` applied to an `int32` value. -/
def uint8OfInt32 (i : Int) : Nat := (i % 256).toNat

/-- Go `nativeToRecordType`: internal type string to `adns.RecordType`; the
`default:` branch panics. -/
def nativeToRecordType (recordType : String) : Except AzureError RecordType :=
  match recordType with
  | "A" => .ok .A
  | "AAAA" => .ok .AAAA
  | "CAA" => .ok .CAA
  | "CNAME" => .ok .CNAME
  | "MX" => .ok .MX
  | "NS" => .ok .NS
  | "PTR" => .ok .PTR
  | "SRV" => .ok .SRV
  | "TXT" => .ok .TXT
  | "SOA" => .ok .SOA
  | other => .error (.rtypeUnimplemented other)

/-- Go `azureRecordToRecordType`: native Azure type string to `adns.RecordType`;
the `default:` branch panics. -/
def azureRecordToRecordType (recordType : String) : Except AzureError RecordType :=
  match recordType with
  | "Microsoft.Network/dnszones/A" => .ok .A
  | "Microsoft.Network/dnszones/AAAA" => .ok .AAAA
  | "Microsoft.Network/dnszones/CAA" => .ok .CAA
  | "Microsoft.Network/dnszones/CNAME" => .ok .CNAME
  | "Microsoft.Network/dnszones/MX" => .ok .MX
  | "Microsoft.Network/dnszones/NS" => .ok .NS
  | "Microsoft.Network/dnszones/PTR" => .ok .PTR
  | "Microsoft.Network/dnszones/SRV" => .ok .SRV
  | "Microsoft.Network/dnszones/TXT" => .ok .TXT
  | "Microsoft.Network/dnszones/SOA" => .ok .SOA
  | other => .error (.rtypeUnimplemented other)

/-- Modelled from the spec: `models.RecordConfig.SetLabelFromFQDN` is
outside the given source tree; per §3 the name is stored in fully-qualified,
trailing-dot-stripped form and the label is relative to the zone origin (the
apex label being the usual `@`). -/
def setLabelFromFQDN (rc : RecordConfig) (fqdn origin : String) : RecordConfig :=
  let f := trimSuffixDot fqdn
  let label :=
    if f = origin then "@"
    else if strEndsWith f ("." ++ origin) then strDropRight f (origin.data.length + 1)
    else f
  { rc with name := label, nameFQDN := f }

/-- Modelled from the spec: `rc.SetTarget` of the models package is outside
the given source tree; the target is the type-dependent string payload (§3). -/
def setTarget (rc : RecordConfig) (t : String) : RecordConfig :=
  { rc with target := t }

/-- Modelled from the spec: `rc.SetTargetTXTs` of the models package is
outside the given source tree; TXT records carry a list of strings
(TXT-multi, §3), the display target being their join. -/
def setTargetTXTs (rc : RecordConfig) (v : List String) : RecordConfig :=
  { rc with txtStrings := v, target := String.intercalate " " v }

/-- Modelled from the spec: `rc.SetTargetMX` of the models package is
outside the given source tree; MX records carry a structured preference and
an exchange target (§3). -/
def setTargetMX (rc : RecordConfig) (pref : Nat) (exchange : String) : RecordConfig :=
  { rc with mxPreference := pref, target := exchange }

/-- Modelled from the spec: `rc.SetTargetSRV` of the models package is
outside the given source tree; SRV records carry structured
priority/weight/port fields (§3). -/
def setTargetSRV (rc : RecordConfig) (priority weight port : Nat) (target : String) : RecordConfig :=
  { rc with srvPriority := priority, srvWeight := weight, srvPort := port, target := target }

/-- Modelled from the spec: `rc.SetTargetCAA` of the models package is
outside the given source tree; CAA records carry structured flag/tag fields
(§3). -/
def setTargetCAA (rc : RecordConfig) (flag : Nat) (tag value : String) : RecordConfig :=
  { rc with caaFlag := flag, caaTag := tag, target := value }

/-- The `rc := &models.RecordConfig{TTL: uint32(*set.TTL)}` plus
`rc.SetLabelFromFQDN(*set.Fqdn, origin)` plus `rc.Type = ty` prelude shared
by every case of `nativeToRecords`. -/
def baseRC (set : RecordSet) (origin ty : String) : RecordConfig :=
  { setLabelFromFQDN { ttl := uint32OfInt64 set.ttl } set.fqdn origin with type := ty }

/-- Go `nativeToRecords`: convert one native record set into internal records.
SOA yields nothing; an unknown native type panics. -/
def nativeToRecords (set : RecordSet) (origin : String) : Except AzureError (List RecordConfig) :=
  match set.type with
  | "Microsoft.Network/dnszones/A" =>
      .ok (set.aRecords.map (fun rec => setTarget (baseRC set origin "A") rec.ipv4Address))
  | "Microsoft.Network/dnszones/AAAA" =>
      .ok (set.aaaaRecords.map (fun rec => setTarget (baseRC set origin "AAAA") rec.ipv6Address))
  | "Microsoft.Network/dnszones/CNAME" =>
      match set.cnameRecord with
      | none => .error (.nilPointer "CnameRecord")
      | some cr => .ok [setTarget (baseRC set origin "CNAME") cr.cname]
  | "Microsoft.Network/dnszones/NS" =>
      .ok (set.nsRecords.map (fun rec => setTarget (baseRC set origin "NS") rec.nsdname))
  | "Microsoft.Network/dnszones/PTR" =>
      .ok (set.ptrRecords.map (fun rec => setTarget (baseRC set origin "PTR") rec.ptrdname))
  | "Microsoft.Network/dnszones/TXT" =>
      .ok (set.txtRecords.map (fun rec => setTargetTXTs (baseRC set origin "TXT") rec.value))
  | "Microsoft.Network/dnszones/MX" =>
      .ok (set.mxRecords.map (fun rec =>
        setTargetMX (baseRC set origin "MX") (uint16OfInt32 rec.preference) rec.exchange))
  | "Microsoft.Network/dnszones/SRV" =>
      .ok (set.srvRecords.map (fun rec =>
        setTargetSRV (baseRC set origin "SRV") (uint16OfInt32 rec.priority)
          (uint16OfInt32 rec.weight) (uint16OfInt32 rec.port) rec.target))
  | "Microsoft.Network/dnszones/CAA" =>
      .ok (set.caaRecords.map (fun rec =>
        setTargetCAA (baseRC set origin "CAA") (uint8OfInt32 rec.flags) rec.tag rec.value))
  | "Microsoft.Network/dnszones/SOA" => .ok []
  | other => .error (.rtypeUnimplemented other)

/-- One step of the loop body of `recordToNative`: the `switch recordKey.Type`
appending one desired record to the native set being built; the `default:`
branch panics. -/
def addNativeRecord (ty : String) (rs : RecordSet) (rec : RecordConfig) : Except AzureError RecordSet :=
  match ty with
  | "A" => .ok { rs with aRecords := rs.aRecords ++ [⟨rec.target⟩] }
  | "AAAA" => .ok { rs with aaaaRecords := rs.aaaaRecords ++ [⟨rec.target⟩] }
  | "CNAME" => .ok { rs with cnameRecord := some ⟨rec.target⟩ }
  | "NS" => .ok { rs with nsRecords := rs.nsRecords ++ [⟨rec.target⟩] }
  | "PTR" => .ok { rs with ptrRecords := rs.ptrRecords ++ [⟨rec.target⟩] }
  | "TXT" => .ok { rs with txtRecords := rs.txtRecords ++ [⟨rec.txtStrings⟩] }
  | "MX" => .ok { rs with mxRecords :=
      rs.mxRecords ++ [⟨Int.ofNat rec.mxPreference, rec.target⟩] }
  | "SRV" => .ok { rs with srvRecords :=
      rs.srvRecords ++ [⟨Int.ofNat rec.srvPriority, Int.ofNat rec.srvWeight,
        Int.ofNat rec.srvPort, rec.target⟩] }
  | "CAA" => .ok { rs with caaRecords :=
      rs.caaRecords ++ [⟨Int.ofNat rec.caaFlag, rec.caaTag, rec.target⟩] }
  | other => .error (.rtypeUnimplemented other)

/-- The `for _, rec := range recordConfig` loop of `recordToNative`. -/
def buildNativeSet (ty : String) : List RecordConfig → RecordSet → Except AzureError RecordSet
  | [], rs => .ok rs
  | rec :: rest, rs =>
    match addNativeRecord ty rs rec with
    | .error e => .error e
    | .ok rs2 => buildNativeSet ty rest rs2

/-- Go `&adns.RecordSet{Type: to.StringPtr(recordKey.Type),
RecordSetProperties: &adns.RecordSetProperties{}}`. -/
def emptyNativeSet (ty : String) : RecordSet := { name := "", type := ty, fqdn := "" }

/-- Go `recordToNative`: build the native upsert payload for one key from its
desired records, together with the key's `adns.RecordType`. -/
def recordToNative (recordKey : RecordKey) (recordConfig : List RecordConfig) :
    Except AzureError (RecordSet × RecordType) :=
  match buildNativeSet recordKey.type recordConfig (emptyNativeSet recordKey.type) with
  | .error e => .error e
  | .ok rs =>
    match nativeToRecordType recordKey.type with
    | .error e => .error e
    | .ok rt => .ok (rs, rt)

/-- Go `fetchRecordSets`: returns the pre-fetched listing for the zone; an empty
zone name yields `nil, nil`. -/
def fetchRecordSets (a : AzureDnsProvider) (zoneName : String) : List RecordSet :=
  if zoneName = "" then [] else (assocLookup a.remoteSets zoneName).getD []

/-- Modelled from the spec: `DomainConfig.Punycode` lives in the `models`
package outside the given source tree; per §6 the desired input is "already
validated/normalized, including punycode conversion of non-ASCII names,
performed upstream before the core runs", so it is the identity and does not
fail here. -/
def punycode (dc : DomainConfig) : Except AzureError DomainConfig := .ok dc

/-- Modelled from the spec: `models.PostProcessRecords` is outside the given
source tree; per §4.1 records reaching the differ are already in identically
normalized form, so the normalization pass is the identity here. -/
def postProcessRecords (recs : List RecordConfig) : List RecordConfig := recs

/-- Modelled from the spec: the Record-Set Grouper lives in the `diff`
package outside the given source tree; its worklist maps a flat ordered
record sequence to distinct keys "preserving first-seen order" (§4.1). -/
def groupKeysAux : List RecordKey → List RecordConfig → List RecordKey
  | acc, [] => acc
  | acc, rc :: rest =>
      groupKeysAux (if rcKey rc ∈ acc then acc else acc ++ [rcKey rc]) rest

/-- Modelled from the spec: distinct keys of a record list in first-seen
order (§4.1). -/
def groupKeys (recs : List RecordConfig) : List RecordKey := groupKeysAux [] recs

/-- Modelled from the spec: the comparable payload of one record for the
differ, TTL plus the type-specific target content; equality compares "TTL,
and ... the multiset of target payloads (... exact string/structured-field
equality per record)" (§4.2). -/
structure Payload where
  ttl : Nat
  target : String
  txtStrings : List String
  mxPreference : Nat
  srvPriority : Nat
  srvWeight : Nat
  srvPort : Nat
  caaTag : String
  caaFlag : Nat
deriving DecidableEq, Repr

/-- Modelled from the spec: the payload of one record (§4.2). -/
def rcPayload (rc : RecordConfig) : Payload :=
  ⟨rc.ttl, rc.target, rc.txtStrings, rc.mxPreference, rc.srvPriority,
    rc.srvWeight, rc.srvPort, rc.caaTag, rc.caaFlag⟩

/-- Modelled from the spec: the number of records of a list sharing a given
payload, used for the order-independent multiset comparison (§4.2). -/
def payloadCount (xs : List RecordConfig) (p : Payload) : Nat :=
  (xs.filter (fun r => decide (rcPayload r = p))).length

/-- Modelled from the spec: semantic record-set equality of the differ is
order-independent multiset comparison of payloads with exact per-record
equality (§4.2). -/
def setsSemEqual (xs ys : List RecordConfig) : Bool :=
  xs.length == ys.length &&
    xs.all (fun x => payloadCount xs (rcPayload x) == payloadCount ys (rcPayload x))

/-- Modelled from the spec: description lines for a key that will be created
(§4.2: "include all desired records under that key as description lines"). -/
def describeCreate (recs : List RecordConfig) : List String :=
  recs.map (fun r => "will create " ++ r.type ++ " " ++ r.nameFQDN ++ " " ++ r.target)

/-- The desired records of one key: `dc.Records` filtered by `rc.Key() == k`
(the collection loop filling `updates[k]` in the source). -/
def keyRecords (dc : DomainConfig) (k : RecordKey) : List RecordConfig :=
  dc.records.filter (fun rc => decide (rcKey rc = k))

/-- Modelled from the spec: the Differ builds "the union of keys present in
either existing or desired" (§4.2); existing keys first, then desired-only
keys. -/
def changedKeysList (dc : DomainConfig) (existing : List RecordConfig) : List RecordKey :=
  groupKeys existing ++
    (groupKeys dc.records).filter (fun k => decide (k ∉ groupKeys existing))

/-- Modelled from the spec: the differ verdict for one key (§4.2); present
only in desired means create, present only in existing means delete, present
in both means compare for semantic equality and keep only unequal keys. -/
def changeForKey (dc : DomainConfig) (existing : List RecordConfig) (k : RecordKey) :
    Option (RecordKey × List String) :=
  let ex := existing.filter (fun r => decide (rcKey r = k))
  let de := dc.records.filter (fun r => decide (rcKey r = k))
  if de.isEmpty then some (k, ["will delete " ++ k.type ++ " " ++ k.nameFQDN])
  else if ex.isEmpty then some (k, describeCreate de)
  else if setsSemEqual ex de then none
  else some (k, ["will update " ++ k.type ++ " " ++ k.nameFQDN])

/-- Modelled from the spec: `diff.New(dc).ChangedGroups(existing)` — the
Differ (§4.2) — lives in the `diff` package outside the given source tree;
semantically identical keys are excluded — the hard no-op guarantee. -/
def changedGroups (dc : DomainConfig) (existing : List RecordConfig) :
    List (RecordKey × List String) :=
  (changedKeysList dc existing).filterMap (changeForKey dc existing)

/-- The remote mutation a Correction closure would perform: the arguments the
source passes to `recordsClient.Delete` respectively
`recordsClient.CreateOrUpdate`. -/
inductive CorrectionOp where
  | delete (resourceGroup zoneName recordSetName : String) (recordType : RecordType)
  | upsert (resourceGroup zoneName recordSetName : String) (recordType : RecordType)
      (rrset : RecordSet)
deriving DecidableEq, Repr

/-- Modelled from the spec: `models.Correction` is outside the given source
tree; a Correction is "a human-readable summary of what changed plus an
idempotent, retryable action" (§3), the action here recorded as the remote
call it would make. -/
structure Correction where
  msg : String
  op : CorrectionOp
deriving DecidableEq, Repr

/-- The search of the pure-delete branch: the first fetched record set whose
trimmed FQDN equals the key's name and whose record type equals the key's
converted type. The `&&` of the source short-circuits, so the (panicking)
type conversions only run when the FQDN matches. -/
def findDeleteTarget (k : RecordKey) : List RecordSet → Except AzureError (Option RecordSet)
  | [] => .ok none
  | r :: rest =>
    if trimSuffixDot r.fqdn = k.nameFQDN then
      match azureRecordToRecordType r.type with
      | .error e => .error e
      | .ok ert =>
        match nativeToRecordType k.type with
        | .error e => .error e
        | .ok krt =>
          if ert = krt then .ok (some r) else findDeleteTarget k rest
    else findDeleteTarget k rest

/-- The conflict-clearing loop of the upsert branch (`for _, r := range
records`): both type conversions run unconditionally each iteration; a
delete is emitted when the FQDN matches the key, a CNAME is involved, and an
A/AAAA is involved. The delete call passes `recordName` (taken from the
desired records) and the existing set's record type. -/
def conflictDeletes (resourceGroup zoneName recordName msg : String) (k : RecordKey) :
    List RecordSet → Except AzureError (List Correction)
  | [] => .ok []
  | r :: rest =>
    match azureRecordToRecordType r.type with
    | .error e => .error e
    | .ok existingRecordType =>
      match nativeToRecordType k.type with
      | .error e => .error e
      | .ok changedRecordType =>
        match conflictDeletes resourceGroup zoneName recordName msg k rest with
        | .error e => .error e
        | .ok cs =>
          if trimSuffixDot r.fqdn = k.nameFQDN ∧
              (changedRecordType = .CNAME ∨ existingRecordType = .CNAME) then
            if existingRecordType = .A ∨ existingRecordType = .AAAA ∨
                changedRecordType = .A ∨ changedRecordType = .AAAA then
              .ok (⟨msg, .delete resourceGroup zoneName recordName existingRecordType⟩ :: cs)
            else .ok cs
          else .ok cs

/-- Go `for _, r := range recs { i := int64(r.TTL); rrset.TTL = &i }`: the TTL
left on the native set is the one of the last record processed. -/
def lastTTL (recs : List RecordConfig) (d : Int) : Int :=
  recs.foldl (fun _ r => Int.ofNat r.ttl) d

/-- Go `for _, r := range recs { recordName = r.Name }`: the record name used in
the remote calls is the one of the last record processed. -/
def lastName (recs : List RecordConfig) (d : String) : String :=
  recs.foldl (fun _ r => r.name) d

/-- The body of the planning loop of `GetDomainCorrections` for one changed
key `k` with its matching desired records `recs`: a pure delete when no
desired records remain (an error when no matching remote set exists),
otherwise conflict-clearing deletes followed by one upsert. -/
def planKey (a : AzureDnsProvider) (zone : Zone) (records : List RecordSet)
    (msg : String) (k : RecordKey) (recs : List RecordConfig) :
    Except AzureError (List Correction) :=
  if recs.isEmpty then
    match findDeleteTarget k records with
    | .error e => .error e
    | .ok none => .error (.noRecordSetToDelete k.nameFQDN k.type)
    | .ok (some rrset) =>
      match azureRecordToRecordType rrset.type with
      | .error e => .error e
      | .ok rt => .ok [⟨msg, .delete a.resourceGroup zone.name rrset.name rt⟩]
  else
    match recordToNative k recs with
    | .error e => .error e
    | .ok (rrset0, recordType) =>
      let rrset : RecordSet := { rrset0 with ttl := lastTTL recs rrset0.ttl }
      let recordName := lastName recs ""
      match conflictDeletes a.resourceGroup zone.name recordName msg k records with
      | .error e => .error e
      | .ok ds =>
        .ok (ds ++ [⟨msg, .upsert a.resourceGroup zone.name recordName recordType rrset⟩])

/-- One entry of the `updates` map: key, its differ description lines, and
the desired records whose key matches. -/
def updatesFor (dc : DomainConfig) (namesToUpdate : List (RecordKey × List String)) :
    List (RecordKey × List String × List RecordConfig) :=
  namesToUpdate.map (fun p => (p.1, p.2, keyRecords dc p.1))

/-- The `for k, recs := range updates` loop: corrections accumulate across
iterations; an error inside an iteration makes the whole call return
`nil, err`, discarding the corrections accumulated so far. -/
def planLoop (a : AzureDnsProvider) (zone : Zone) (records : List RecordSet)
    (acc : List Correction) :
    List (RecordKey × List String × List RecordConfig) →
      List Correction × Option AzureError
  | [] => (acc, none)
  | u :: rest =>
    match planKey a zone records (String.intercalate "\n" u.2.1) u.1 u.2.2 with
    | .error e => ([], some e)
    | .ok cs => planLoop a zone records (acc ++ cs) rest

/-- The `for _, set := range records` conversion of the fetched sets into
existing internal records (a panic inside `nativeToRecords` aborts). -/
def collectExisting (origin : String) : List RecordSet → Except AzureError (List RecordConfig)
  | [] => .ok []
  | set :: rest =>
    match nativeToRecords set origin with
    | .error e => .error e
    | .ok rcs =>
      match collectExisting origin rest with
      | .error e => .error e
      | .ok more => .ok (rcs ++ more)

/-- Go `GetDomainCorrections` from the zone lookup on: fetch, convert,
post-process, diff, early return on an empty changed set, then plan. -/
def planZone (a : AzureDnsProvider) (dc : DomainConfig) (zone : Zone) :
    List Correction × Option AzureError :=
  let records := fetchRecordSets a zone.name
  match collectExisting dc.name records with
  | .error e => ([], some e)
  | .ok existingRecords0 =>
    let existingRecords := postProcessRecords existingRecords0
    let namesToUpdate := changedGroups dc existingRecords
    if namesToUpdate.isEmpty then ([], none)
    else planLoop a zone records [] (updatesFor dc namesToUpdate)

/-- Go `GetDomainCorrections`: punycode the config, look the zone up (NotFound
when absent), then plan the zone. -/
def GetDomainCorrections (a : AzureDnsProvider) (dc : DomainConfig) :
    List Correction × Option AzureError :=
  match punycode dc with
  | .error e => ([], some e)
  | .ok dc2 =>
    match assocLookup a.zones dc2.name with
    | none => ([], some (.errNoExist dc2.name))
    | some zone => planZone a dc2 zone

/-- Go `GetNameservers`: NotFound for an unknown domain; otherwise the zone's
nameserver list (empty when `ZoneProperties` is nil). -/
def GetNameservers (a : AzureDnsProvider) (domain : String) :
    List Nameserver × Option AzureError :=
  match assocLookup a.zones domain with
  | none => ([], some (.errNoExist domain))
  | some zone =>
    match zone.zoneProperties with
    | none => ([], none)
    | some nss => (nss.map Nameserver.mk, none)

/-- The zone-level remote mutation `EnsureDomainExists` can issue: the
arguments the source passes to `zonesClient.CreateOrUpdate`. -/
inductive ZoneAction where
  | createZone (resourceGroup domain location : String)
deriving DecidableEq, Repr

/-- Go `EnsureDomainExists`: returns the (unmodified) receiver state, the zone
creation requests issued, and the error. A known domain is a no-op; an
unknown one issues one `CreateOrUpdate` with location `"global"`. The method
body never assigns to `a.zones`. -/
def EnsureDomainExists (a : AzureDnsProvider) (domain : String) :
    AzureDnsProvider × List ZoneAction × Option AzureError :=
  match assocLookup a.zones domain with
  | some _ => (a, [], none)
  | none => (a, [ZoneAction.createZone a.resourceGroup domain "global"], none)

/-- Decidable equality for `Except`, so that runs of the embedded functions
can be checked by evaluation. -/
instance exceptDecEq {α β : Type} [DecidableEq α] [DecidableEq β] :
    DecidableEq (Except α β) := fun x y =>
  match x, y with
  | .ok a, .ok b =>
    if h : a = b then .isTrue (by rw [h]) else .isFalse (fun hh => h (by injection hh))
  | .error a, .error b =>
    if h : a = b then .isTrue (by rw [h]) else .isFalse (fun hh => h (by injection hh))
  | .ok _, .error _ => .isFalse (fun hh => Except.noConfusion hh)
  | .error _, .ok _ => .isFalse (fun hh => Except.noConfusion hh)

/-! Concrete scenarios used by the witnesses. -/

/-- A zone of the account, named with the trailing dot the API reports. -/
def wZone : Zone := ⟨"example.com.", some ["ns1-01.azure-dns.com."]⟩

/-- One existing remote A record set at `host.example.com`. -/
def wSetA : RecordSet :=
  { name := "host", type := "Microsoft.Network/dnszones/A",
    fqdn := "host.example.com.", ttl := 300, aRecords := [⟨"1.1.1.1"⟩] }

/-- A provider session knowing `example.com` with `wSetA` in its listing. -/
def wProv : AzureDnsProvider :=
  ⟨[("example.com", wZone)], [("example.com.", [wSetA])], "rg"⟩

/-- The internal record `wSetA` converts to. -/
def wRCA : RecordConfig :=
  { name := "host", nameFQDN := "host.example.com", type := "A",
    target := "1.1.1.1", ttl := 300 }

/-- A desired CNAME at the same name as the existing A set. -/
def wRCCname : RecordConfig :=
  { name := "host", nameFQDN := "host.example.com", type := "CNAME",
    target := "target.example.com.", ttl := 300 }

/-! Helper lemmas about the planning loop. -/

/-- The loop of `GetDomainCorrections` discards the accumulated corrections
when an iteration fails. -/
lemma planLoop_snd_some (a : AzureDnsProvider) (zone : Zone) (records : List RecordSet) :
    ∀ (l : List (RecordKey × List String × List RecordConfig)) (acc cs : List Correction)
      (e : AzureError), planLoop a zone records acc l = (cs, some e) → cs = [] := by
  intro l
  induction l with
  | nil => intro acc cs e h; simp [planLoop] at h
  | cons u rest ih =>
    intro acc cs e h
    simp only [planLoop] at h
    cases h0 : planKey a zone records (String.intercalate "\n" u.2.1) u.1 u.2.2 with
    | error e2 => rw [h0] at h; simp at h; exact h.1
    | ok g => rw [h0] at h; exact ih (acc ++ g) cs e h

/-- A successful loop run extends the accumulator. -/
lemma planLoop_prefix (a : AzureDnsProvider) (zone : Zone) (records : List RecordSet) :
    ∀ (l : List (RecordKey × List String × List RecordConfig)) (acc cs : List Correction),
      planLoop a zone records acc l = (cs, none) → ∃ tail, cs = acc ++ tail := by
  intro l
  induction l with
  | nil =>
    intro acc cs h
    simp only [planLoop, Prod.mk.injEq] at h
    exact ⟨[], by simp [h.1.symm]⟩
  | cons u rest ih =>
    intro acc cs h
    simp only [planLoop] at h
    cases h0 : planKey a zone records (String.intercalate "\n" u.2.1) u.1 u.2.2 with
    | error e2 => rw [h0] at h; simp at h
    | ok g =>
      rw [h0] at h
      obtain ⟨tail, htail⟩ := ih (acc ++ g) cs h
      exact ⟨g ++ tail, by simp [htail]⟩

/-- Each entry of a successfully planned loop contributes a contiguous group
of corrections, produced by `planKey` on that entry. -/
lemma planLoop_mem (a : AzureDnsProvider) (zone : Zone) (records : List RecordSet) :
    ∀ (l : List (RecordKey × List String × List RecordConfig)) (acc cs : List Correction)
      (u : RecordKey × List String × List RecordConfig),
      planLoop a zone records acc l = (cs, none) → u ∈ l →
      ∃ gs pre post, planKey a zone records (String.intercalate "\n" u.2.1) u.1 u.2.2 = .ok gs ∧
        cs = pre ++ gs ++ post := by
  intro l
  induction l with
  | nil => intro acc cs u _ hu; cases hu
  | cons u0 rest ih =>
    intro acc cs u h hu
    simp only [planLoop] at h
    cases h0 : planKey a zone records (String.intercalate "\n" u0.2.1) u0.1 u0.2.2 with
    | error e2 => rw [h0] at h; simp at h
    | ok g =>
      rw [h0] at h
      rcases List.mem_cons.mp hu with hu0 | hurest
      · subst hu0
        obtain ⟨tail, htail⟩ := planLoop_prefix a zone records rest (acc ++ g) cs h
        exact ⟨g, acc, tail, h0, by simp [htail]⟩
      · exact ih (acc ++ g) cs u h hurest

/-- A Go-style result pair whose error-bearing values all carry the empty
list either succeeded or carries the empty list. -/
lemma pair_cases (p : List Correction × Option AzureError)
    (h : ∀ cs e, p = (cs, some e) → cs = []) : p.2 = none ∨ p.1 = [] := by
  cases hp : p.2 with
  | none => exact Or.inl rfl
  | some e => exact Or.inr (h p.1 e (by rw [← hp]))

/-- Every result of `GetDomainCorrections` either succeeded or carries an
empty correction list. -/
lemma gdc_cases (a : AzureDnsProvider) (dc : DomainConfig) :
    (GetDomainCorrections a dc).2 = none ∨ (GetDomainCorrections a dc).1 = [] := by
  simp only [GetDomainCorrections, punycode, planZone]
  split
  · simp
  · split
    · simp
    · split
      · simp
      · exact pair_cases _ (fun cs e hh => planLoop_snd_some _ _ _ _ _ cs e hh)

/-- Error results of `GetDomainCorrections` carry an empty correction list. -/
lemma gdc_snd_some_fst_nil (a : AzureDnsProvider) (dc : DomainConfig) (e : AzureError)
    (h : (GetDomainCorrections a dc).2 = some e) :
    (GetDomainCorrections a dc).1 = [] := by
  rcases gdc_cases a dc with hn | hnil
  · rw [h] at hn; cases hn
  · exact hnil

/-- When the changed-key set is nonempty, `GetDomainCorrections` is the
planning loop over the updates built from it. -/
lemma gdc_eq_planLoop (a : AzureDnsProvider) (dc : DomainConfig) (zone : Zone)
    (ex : List RecordConfig)
    (hz : assocLookup a.zones dc.name = some zone)
    (hex : collectExisting dc.name (fetchRecordSets a zone.name) = .ok ex)
    (hni : (changedGroups dc (postProcessRecords ex)).isEmpty = false) :
    GetDomainCorrections a dc =
      planLoop a zone (fetchRecordSets a zone.name) []
        (updatesFor dc (changedGroups dc (postProcessRecords ex))) := by
  simp [GetDomainCorrections, punycode, hz, planZone, hex, hni]

/-! Claim theorems: the simple ones. -/

/-- Claim C1: when the differ reports zero changed keys for a zone whose
existing records were successfully fetched and converted,
`GetDomainCorrections` returns the empty correction sequence (`nil, nil`),
before any per-key planning. -/
theorem noop_zero_changed_keys (a : AzureDnsProvider) (dc : DomainConfig) (zone : Zone)
    (ex : List RecordConfig)
    (hz : assocLookup a.zones dc.name = some zone)
    (hex : collectExisting dc.name (fetchRecordSets a zone.name) = .ok ex)
    (hch : changedGroups dc (postProcessRecords ex) = []) :
    GetDomainCorrections a dc = ([], none) := by
  simp [GetDomainCorrections, punycode, hz, planZone, hex, hch]

/-- Witness for C1: a converged zone (the existing A set equals the desired
record) yields zero changed keys and zero corrections. -/
theorem noop_zero_changed_keys_witness :
    GetDomainCorrections wProv ⟨"example.com", [wRCA]⟩ = ([], none) :=
  noop_zero_changed_keys wProv ⟨"example.com", [wRCA]⟩ wZone [wRCA]
    (by decide) (by decide) (by decide)

/-- Claim C4: whenever `GetDomainCorrections` fails, it returns no
corrections at all — the corrections accumulated before the failure are
discarded, never a partial plan. -/
theorem planning_error_returns_no_corrections (a : AzureDnsProvider) (dc : DomainConfig)
    (e : AzureError) (h : (GetDomainCorrections a dc).2 = some e) :
    (GetDomainCorrections a dc).1 = [] :=
  gdc_snd_some_fst_nil a dc e h

/-- Witness for C4: a run failing on an unknown domain produces no
corrections. -/
theorem planning_error_returns_no_corrections_witness :
    (GetDomainCorrections wProv ⟨"missing.example", []⟩).1 = [] :=
  planning_error_returns_no_corrections wProv ⟨"missing.example", []⟩
    (.errNoExist "missing.example") (by decide)

/-- Claim C6: a domain absent from the provider's zone map makes both
`GetNameservers` and `GetDomainCorrections` return the NotFound error
`errNoExist` with no nameservers and no corrections. -/
theorem unknown_domain_not_found (a : AzureDnsProvider) (d : String) (dc : DomainConfig)
    (hd : assocLookup a.zones d = none) (hdc : dc.name = d) :
    GetNameservers a d = ([], some (.errNoExist d)) ∧
    GetDomainCorrections a dc = ([], some (.errNoExist d)) := by
  subst hdc
  refine ⟨?_, ?_⟩
  · simp [GetNameservers, hd]
  · simp [GetDomainCorrections, punycode, hd]

/-- Witness for C6: a concrete unknown domain. -/
theorem unknown_domain_not_found_witness :
    GetNameservers wProv "missing.example" = ([], some (.errNoExist "missing.example")) ∧
    GetDomainCorrections wProv ⟨"missing.example", []⟩ =
      ([], some (.errNoExist "missing.example")) :=
  unknown_domain_not_found wProv "missing.example" ⟨"missing.example", []⟩
    (by decide) rfl

/-- Claim C8: converting an existing record set of native type SOA yields no
internal records — SOA is ignored, not an error. -/
theorem soa_sets_ignored (set : RecordSet) (origin : String)
    (h : set.type = "Microsoft.Network/dnszones/SOA") :
    nativeToRecords set origin = .ok [] := by
  unfold nativeToRecords
  rw [h]
  rfl

/-- Witness for C8: a concrete SOA record set converts to no records. -/
theorem soa_sets_ignored_witness :
    nativeToRecords
      { name := "@", type := "Microsoft.Network/dnszones/SOA",
        fqdn := "example.com.", ttl := 3600 } "example.com" = .ok [] :=
  soa_sets_ignored _ "example.com" rfl

/-- Claim C9: `EnsureDomainExists` is a successful no-op on a known domain
and issues exactly one zone-creation request (location `"global"`) on an
unknown one. -/
theorem ensure_domain_exists_spec (a : AzureDnsProvider) (d : String) :
    ((∃ z, assocLookup a.zones d = some z) → EnsureDomainExists a d = (a, [], none)) ∧
    (assocLookup a.zones d = none →
      EnsureDomainExists a d = (a, [ZoneAction.createZone a.resourceGroup d "global"], none)) := by
  constructor
  · rintro ⟨z, hz⟩; simp [EnsureDomainExists, hz]
  · intro h; simp [EnsureDomainExists, h]

/-- Witness for C9: both branches at concrete domains. -/
theorem ensure_domain_exists_spec_witness :
    EnsureDomainExists wProv "example.com" = (wProv, [], none) ∧
    EnsureDomainExists wProv "other.com" =
      (wProv, [ZoneAction.createZone "rg" "other.com" "global"], none) :=
  ⟨(ensure_domain_exists_spec wProv "example.com").1 ⟨wZone, by decide⟩,
    (ensure_domain_exists_spec wProv "other.com").2 (by decide)⟩

/-- Claim C10: `EnsureDomainExists` leaves the in-memory zone map untouched,
so for a previously unknown domain an immediately following
`GetNameservers` or `GetDomainCorrections` in the same session still
reports NotFound. -/
theorem ensure_domain_exists_frame (a : AzureDnsProvider) (d : String) (dc : DomainConfig)
    (hd : assocLookup a.zones d = none) (hdc : dc.name = d) :
    (EnsureDomainExists a d).1.zones = a.zones ∧
    GetNameservers (EnsureDomainExists a d).1 d = ([], some (.errNoExist d)) ∧
    GetDomainCorrections (EnsureDomainExists a d).1 dc = ([], some (.errNoExist d)) := by
  subst hdc
  have h1 : (EnsureDomainExists a dc.name).1 = a := by
    simp [EnsureDomainExists, hd]
  rw [h1]
  refine ⟨rfl, ?_, ?_⟩
  · simp [GetNameservers, hd]
  · simp [GetDomainCorrections, punycode, hd]

/-- Witness for C10: after creating a previously unknown zone the session
still reports NotFound for it. -/
theorem ensure_domain_exists_frame_witness :
    (EnsureDomainExists wProv "new.example").1.zones = wProv.zones ∧
    GetNameservers (EnsureDomainExists wProv "new.example").1 "new.example" =
      ([], some (.errNoExist "new.example")) ∧
    GetDomainCorrections (EnsureDomainExists wProv "new.example").1 ⟨"new.example", []⟩ =
      ([], some (.errNoExist "new.example")) :=
  ensure_domain_exists_frame wProv "new.example" ⟨"new.example", []⟩ (by decide) rfl

/-! Helper lemmas about `planKey`. -/

/-- A nonempty list has `isEmpty = false`. -/
lemma ne_nil_isEmpty_false {α : Type} (l : List α) (h : l ≠ []) : l.isEmpty = false := by
  cases l with
  | nil => exact absurd rfl h
  | cons x xs => rfl

/-- On a changed key that still has desired records, `planKey` produces the
conflict-clearing deletes followed by exactly one upsert whose payload is the
one built by `recordToNative` with the TTL overwritten by the record loop. -/
lemma planKey_upsert_decomp (a : AzureDnsProvider) (zone : Zone) (records : List RecordSet)
    (msg : String) (k : RecordKey) (recs : List RecordConfig) (cs : List Correction)
    (hne : recs ≠ []) (h : planKey a zone records msg k recs = .ok cs) :
    ∃ rrset0 recordType ds,
      recordToNative k recs = .ok (rrset0, recordType) ∧
      conflictDeletes a.resourceGroup zone.name (lastName recs "") msg k records = .ok ds ∧
      cs = ds ++ [⟨msg, .upsert a.resourceGroup zone.name (lastName recs "") recordType
        { rrset0 with ttl := lastTTL recs rrset0.ttl }⟩] := by
  unfold planKey at h
  rw [ne_nil_isEmpty_false recs hne] at h
  simp only [Bool.false_eq_true, if_false] at h
  cases hrn : recordToNative k recs with
  | error e => rw [hrn] at h; cases h
  | ok pr =>
    obtain ⟨rrset0, recordType⟩ := pr
    rw [hrn] at h
    simp only [] at h
    cases hcd : conflictDeletes a.resourceGroup zone.name (lastName recs "") msg k records with
    | error e => rw [hcd] at h; cases h
    | ok ds =>
      rw [hcd] at h
      injection h with h2
      exact ⟨rrset0, recordType, ds, rfl, rfl, h2.symm⟩

/-- The TTL written last by the record loop is the TTL of the last record. -/
lemma lastTTL_eq_getLast :
    ∀ (recs : List RecordConfig) (hne : recs ≠ []) (d : Int),
      lastTTL recs d = Int.ofNat ((recs.getLast hne).ttl)
  | [], hne, _ => absurd rfl hne
  | [r], _, d => rfl
  | r1 :: r2 :: rest, _, d => by
    have h1 : lastTTL (r1 :: r2 :: rest) d = lastTTL (r2 :: rest) (Int.ofNat r1.ttl) := rfl
    rw [h1, lastTTL_eq_getLast (r2 :: rest) (by simp) (Int.ofNat r1.ttl)]
    congr 1

/-- Claim C5: the native upsert payload built for a changed key carries the
TTL of the last desired record processed for that key, whatever TTLs earlier
records under the same key carried. -/
theorem upsert_ttl_last_record_wins (a : AzureDnsProvider) (zone : Zone)
    (records : List RecordSet) (msg : String) (k : RecordKey) (recs : List RecordConfig)
    (cs : List Correction) (hne : recs ≠ [])
    (h : planKey a zone records msg k recs = .ok cs) :
    ∃ ds recordType rrset,
      cs = ds ++ [⟨msg, .upsert a.resourceGroup zone.name (lastName recs "") recordType rrset⟩] ∧
      rrset.ttl = Int.ofNat ((recs.getLast hne).ttl) := by
  obtain ⟨rrset0, rt, ds, hrn, hcd, hcs⟩ :=
    planKey_upsert_decomp a zone records msg k recs cs hne h
  exact ⟨ds, rt, _, hcs, lastTTL_eq_getLast recs hne rrset0.ttl⟩

/-- First desired record of the C5 witness: TTL 300. -/
def w5rec1 : RecordConfig :=
  { name := "www", nameFQDN := "www.example.com", type := "A",
    target := "1.2.3.4", ttl := 300 }

/-- Second desired record of the C5 witness: TTL 600, same key. -/
def w5rec2 : RecordConfig :=
  { name := "www", nameFQDN := "www.example.com", type := "A",
    target := "5.6.7.8", ttl := 600 }

/-- Witness for C5: two desired A records under one key with TTLs 300 and
600 produce an upsert whose set carries TTL 600, the 300 silently lost. -/
theorem upsert_ttl_last_record_wins_witness :
    ∃ ds recordType rrset,
      [(⟨"msg", .upsert "rg" "example.com." "www" .A
        { name := "", type := "A", fqdn := "", ttl := 600,
          aRecords := [⟨"1.2.3.4"⟩, ⟨"5.6.7.8"⟩] }⟩ : Correction)] =
        ds ++ [⟨"msg", .upsert "rg" "example.com." "www" recordType rrset⟩] ∧
      rrset.ttl = 600 :=
  upsert_ttl_last_record_wins wProv wZone [] "msg" ⟨"www.example.com", "A"⟩
    [w5rec1, w5rec2] _ (by decide) (by decide)

/-! Helper lemmas about the pure-delete branch. -/

/-- What a successful search of the pure-delete branch guarantees: the found
set is in the listing, its trimmed FQDN matches the key, and its converted
record type equals the key's converted type. -/
lemma findDeleteTarget_some (k : RecordKey) :
    ∀ (l : List RecordSet) (r : RecordSet), findDeleteTarget k l = .ok (some r) →
      r ∈ l ∧ trimSuffixDot r.fqdn = k.nameFQDN ∧
      ∃ rt, azureRecordToRecordType r.type = .ok rt ∧ nativeToRecordType k.type = .ok rt := by
  intro l
  induction l with
  | nil => intro r h; cases h
  | cons r0 rest ih =>
    intro r h
    unfold findDeleteTarget at h
    by_cases hf : trimSuffixDot r0.fqdn = k.nameFQDN
    · rw [if_pos hf] at h
      cases he : azureRecordToRecordType r0.type with
      | error e => rw [he] at h; cases h
      | ok ert =>
        rw [he] at h
        simp only [] at h
        cases hk2 : nativeToRecordType k.type with
        | error e => rw [hk2] at h; cases h
        | ok krt =>
          rw [hk2] at h
          simp only [] at h
          by_cases het : ert = krt
          · rw [if_pos het] at h
            injection h with h2
            injection h2 with h3
            subst h3
            exact ⟨List.mem_cons_self r0 rest, hf, ert, he, by rw [het]⟩
          · rw [if_neg het] at h
            obtain ⟨hmem, hfq, rt, h1, h2⟩ := ih r h
            exact ⟨List.mem_cons_of_mem r0 hmem, hfq, rt, h1, by rw [← hk2]; exact h2⟩
    · rw [if_neg hf] at h
      obtain ⟨hmem, hfq, rt, h1, h2⟩ := ih r h
      exact ⟨List.mem_cons_of_mem r0 hmem, hfq, rt, h1, h2⟩

/-- On a changed key with no remaining desired records, a successful
`planKey` is exactly one delete correction aimed at the found remote set. -/
lemma planKey_delete_decomp (a : AzureDnsProvider) (zone : Zone) (records : List RecordSet)
    (msg : String) (k : RecordKey) (cs : List Correction)
    (h : planKey a zone records msg k [] = .ok cs) :
    ∃ rrset rt, findDeleteTarget k records = .ok (some rrset) ∧
      azureRecordToRecordType rrset.type = .ok rt ∧
      cs = [⟨msg, .delete a.resourceGroup zone.name rrset.name rt⟩] := by
  unfold planKey at h
  simp only [List.isEmpty_nil, if_true] at h
  cases hfd : findDeleteTarget k records with
  | error e => rw [hfd] at h; cases h
  | ok o =>
    cases o with
    | none => rw [hfd] at h; cases h
    | some rrset =>
      rw [hfd] at h
      simp only [] at h
      cases hart : azureRecordToRecordType rrset.type with
      | error e => rw [hart] at h; cases h
      | ok rt =>
        rw [hart] at h
        injection h with h2
        exact ⟨rrset, rt, rfl, hart, h2.symm⟩

/-- On a changed key with no remaining desired records and no matching
remote set, `planKey` fails with the fatal inconsistency error. -/
lemma planKey_delete_none (a : AzureDnsProvider) (zone : Zone) (records : List RecordSet)
    (msg : String) (k : RecordKey)
    (hfd : findDeleteTarget k records = .ok none) :
    planKey a zone records msg k [] = .error (.noRecordSetToDelete k.nameFQDN k.type) := by
  unfold planKey
  simp [hfd]

/-- Claim C3: for a changed key with no desired records remaining, the
per-key planning step of a successful run produces exactly one correction —
`planKey` for that key returns the singleton delete of the existing remote
set whose trimmed FQDN and converted type match the key, spliced into the
returned sequence — and, over an arbitrary listing, whenever the search
finds no matching remote set that planning step returns the fatal
inconsistency error instead of silently skipping the delete. (Through the
full pipeline the no-match configuration cannot arise, because the existing
records are derived from the very listing searched; the error behaviour is
therefore stated for the planning step itself, where it is reachable.) -/
theorem pure_delete_single_correction (a : AzureDnsProvider) (dc : DomainConfig) (zone : Zone)
    (ex : List RecordConfig) (k : RecordKey) (msgs : List String)
    (hz : assocLookup a.zones dc.name = some zone)
    (hex : collectExisting dc.name (fetchRecordSets a zone.name) = .ok ex)
    (hk : (k, msgs) ∈ changedGroups dc (postProcessRecords ex))
    (hrecs : keyRecords dc k = []) :
    (∀ cs, GetDomainCorrections a dc = (cs, none) →
      ∃ pre post rrset rt,
        rrset ∈ fetchRecordSets a zone.name ∧
        trimSuffixDot rrset.fqdn = k.nameFQDN ∧
        azureRecordToRecordType rrset.type = .ok rt ∧
        nativeToRecordType k.type = .ok rt ∧
        planKey a zone (fetchRecordSets a zone.name)
          (String.intercalate "\n" msgs) k [] =
          .ok [⟨String.intercalate "\n" msgs,
            .delete a.resourceGroup zone.name rrset.name rt⟩] ∧
        cs = pre ++ ⟨String.intercalate "\n" msgs,
          .delete a.resourceGroup zone.name rrset.name rt⟩ :: post) ∧
    (∀ (records2 : List RecordSet) (msg2 : String),
      findDeleteTarget k records2 = .ok none →
      planKey a zone records2 msg2 k [] =
        .error (.noRecordSetToDelete k.nameFQDN k.type)) := by
  have hni : (changedGroups dc (postProcessRecords ex)).isEmpty = false :=
    ne_nil_isEmpty_false _ (List.ne_nil_of_mem hk)
  have hgdc := gdc_eq_planLoop a dc zone ex hz hex hni
  have hu : (k, msgs, keyRecords dc k) ∈
      updatesFor dc (changedGroups dc (postProcessRecords ex)) :=
    List.mem_map.mpr ⟨(k, msgs), hk, rfl⟩
  rw [hrecs] at hu
  constructor
  · intro cs hok
    rw [hgdc] at hok
    obtain ⟨gs, pre, post, hpk, hcs⟩ :=
      planLoop_mem a zone (fetchRecordSets a zone.name) _ [] cs (k, msgs, []) hok hu
    obtain ⟨rrset, rt, hfd, hart, hgs⟩ :=
      planKey_delete_decomp a zone (fetchRecordSets a zone.name)
        (String.intercalate "\n" msgs) k gs hpk
    obtain ⟨hmem, hfq, rt2, hart2, hnat⟩ :=
      findDeleteTarget_some k (fetchRecordSets a zone.name) rrset hfd
    have hrt : rt2 = rt := by
      rw [hart] at hart2
      injection hart2 with hh
      exact hh.symm
    rw [hgs] at hpk
    refine ⟨pre, post, rrset, rt, hmem, hfq, hart, by rw [← hrt]; exact hnat, hpk, ?_⟩
    rw [hcs, hgs]
    simp
  · intro records2 msg2 hfd
    exact planKey_delete_none a zone records2 msg2 k hfd

/-- Witness for C3: an existing A set with no desired records yields exactly
the one delete correction for it, and on a listing with no matching set the
planning step for the same key concretely returns the inconsistency error. -/
theorem pure_delete_single_correction_witness :
    ((∀ cs, GetDomainCorrections wProv ⟨"example.com", []⟩ = (cs, none) →
      ∃ pre post rrset rt,
        rrset ∈ fetchRecordSets wProv wZone.name ∧
        trimSuffixDot rrset.fqdn = "host.example.com" ∧
        azureRecordToRecordType rrset.type = .ok rt ∧
        nativeToRecordType "A" = .ok rt ∧
        planKey wProv wZone (fetchRecordSets wProv wZone.name)
          (String.intercalate "\n" ["will delete A host.example.com"])
          ⟨"host.example.com", "A"⟩ [] =
          .ok [⟨String.intercalate "\n" ["will delete A host.example.com"],
            .delete "rg" wZone.name rrset.name rt⟩] ∧
        cs = pre ++ ⟨String.intercalate "\n" ["will delete A host.example.com"],
          .delete "rg" wZone.name rrset.name rt⟩ :: post) ∧
    (∀ (records2 : List RecordSet) (msg2 : String),
      findDeleteTarget ⟨"host.example.com", "A"⟩ records2 = .ok none →
      planKey wProv wZone records2 msg2 ⟨"host.example.com", "A"⟩ [] =
        .error (.noRecordSetToDelete "host.example.com" "A"))) ∧
    planKey wProv wZone [] "nomatch" ⟨"host.example.com", "A"⟩ [] =
      .error (.noRecordSetToDelete "host.example.com" "A") :=
  have h := pure_delete_single_correction wProv ⟨"example.com", []⟩ wZone [wRCA]
    ⟨"host.example.com", "A"⟩ ["will delete A host.example.com"]
    (by decide) (by decide) (by decide) (by decide)
  ⟨h, h.2 [] "nomatch" (by decide)⟩

/-! Helper lemmas about the conflict-clearing loop. -/

/-- The record type returned with a successful `recordToNative` payload is
the conversion of the key's type. -/
lemma recordToNative_type (k : RecordKey) (recs : List RecordConfig)
    (rs : RecordSet) (rt : RecordType) (h : recordToNative k recs = .ok (rs, rt)) :
    nativeToRecordType k.type = .ok rt := by
  unfold recordToNative at h
  cases hb : buildNativeSet k.type recs (emptyNativeSet k.type) with
  | error e => rw [hb] at h; cases h
  | ok rs2 =>
    rw [hb] at h
    simp only [] at h
    cases hn : nativeToRecordType k.type with
    | error e => rw [hn] at h; cases h
    | ok rt2 =>
      rw [hn] at h
      injection h with h2
      injection h2 with ha hb2
      rw [hb2]

/-- What a successful conflict-clearing pass guarantees: every emitted
correction is a delete against the planned record name, and every existing
set at the key's name whose type conflicts with the key's type under the
CNAME-exclusivity rule got one. `crt0` is the key's converted type. -/
lemma conflictDeletes_ok_shape (rg zn rn msg : String) (k : RecordKey)
    (crt0 : RecordType) (hn : nativeToRecordType k.type = .ok crt0) :
    ∀ (l : List RecordSet) (cs : List Correction),
      conflictDeletes rg zn rn msg k l = .ok cs →
      (∀ c ∈ cs, ∃ ert, c = ⟨msg, .delete rg zn rn ert⟩) ∧
      (∀ r ∈ l, ∀ ert,
        azureRecordToRecordType r.type = .ok ert →
        trimSuffixDot r.fqdn = k.nameFQDN →
        (crt0 = .CNAME ∨ ert = .CNAME) →
        (ert = .A ∨ ert = .AAAA ∨ crt0 = .A ∨ crt0 = .AAAA) →
        (⟨msg, .delete rg zn rn ert⟩ : Correction) ∈ cs) := by
  intro l
  induction l with
  | nil =>
    intro cs h
    injection h with h2
    constructor
    · intro c hc; rw [← h2] at hc; cases hc
    · intro r hr; cases hr
  | cons r0 rest ih =>
    intro cs h
    unfold conflictDeletes at h
    cases he : azureRecordToRecordType r0.type with
    | error e => rw [he] at h; cases h
    | ok ert0 =>
      rw [he] at h
      simp only [] at h
      rw [hn] at h
      simp only [] at h
      cases hr0 : conflictDeletes rg zn rn msg k rest with
      | error e => rw [hr0] at h; cases h
      | ok cs0 =>
        rw [hr0] at h
        simp only [] at h
        obtain ⟨ihS, ihC⟩ := ih cs0 hr0
        by_cases h1 : trimSuffixDot r0.fqdn = k.nameFQDN ∧
            (crt0 = RecordType.CNAME ∨ ert0 = RecordType.CNAME)
        · rw [if_pos h1] at h
          by_cases h2 : ert0 = RecordType.A ∨ ert0 = RecordType.AAAA ∨
              crt0 = RecordType.A ∨ crt0 = RecordType.AAAA
          · rw [if_pos h2] at h
            injection h with h3
            subst h3
            constructor
            · intro c hc
              rcases List.mem_cons.mp hc with hc0 | hcr
              · exact ⟨ert0, hc0⟩
              · exact ihS c hcr
            · intro r hr ert hert hfq hcn hadd
              rcases List.mem_cons.mp hr with rfl | hrr
              · have hea : ert = ert0 := by
                  rw [he] at hert; injection hert with hh; exact hh.symm
                subst hea
                exact List.mem_cons_self _ _
              · exact List.mem_cons_of_mem _ (ihC r hrr ert hert hfq hcn hadd)
          · rw [if_neg h2] at h
            injection h with h3
            subst h3
            constructor
            · exact ihS
            · intro r hr ert hert hfq hcn hadd
              rcases List.mem_cons.mp hr with rfl | hrr
              · exfalso
                have hea : ert = ert0 := by
                  rw [he] at hert; injection hert with hh; exact hh.symm
                rw [hea] at hadd
                exact h2 hadd
              · exact ihC r hrr ert hert hfq hcn hadd
        · rw [if_neg h1] at h
          injection h with h3
          subst h3
          constructor
          · exact ihS
          · intro r hr ert hert hfq hcn hadd
            rcases List.mem_cons.mp hr with rfl | hrr
            · exfalso
              have hea : ert = ert0 := by
                rw [he] at hert; injection hert with hh; exact hh.symm
              rw [hea] at hcn
              exact h1 ⟨hfq, hcn⟩
            · exact ihC r hrr ert hert hfq hcn hadd

/-- Claim C2: for a changed key that still has desired records, the key's
contribution to a successful plan is a block of conflict-clearing delete
corrections followed immediately by that key's single upsert (so the deletes
come strictly before it in the returned sequence), and every existing set at
the key's FQDN involving a CNAME against an A/AAAA got such a delete. -/
theorem conflict_deletes_precede_upsert (a : AzureDnsProvider) (dc : DomainConfig)
    (zone : Zone) (ex : List RecordConfig) (k : RecordKey) (msgs : List String)
    (cs : List Correction)
    (hz : assocLookup a.zones dc.name = some zone)
    (hex : collectExisting dc.name (fetchRecordSets a zone.name) = .ok ex)
    (hk : (k, msgs) ∈ changedGroups dc (postProcessRecords ex))
    (hrecs : keyRecords dc k ≠ [])
    (hok : GetDomainCorrections a dc = (cs, none)) :
    ∃ pre ds up post,
      cs = pre ++ ds ++ up :: post ∧
      (∀ c ∈ ds, ∃ ert, c = ⟨String.intercalate "\n" msgs,
        .delete a.resourceGroup zone.name (lastName (keyRecords dc k) "") ert⟩) ∧
      (∃ rt rs, up = ⟨String.intercalate "\n" msgs,
        .upsert a.resourceGroup zone.name (lastName (keyRecords dc k) "") rt rs⟩) ∧
      (∀ r ∈ fetchRecordSets a zone.name, ∀ ert crt,
        azureRecordToRecordType r.type = .ok ert →
        nativeToRecordType k.type = .ok crt →
        trimSuffixDot r.fqdn = k.nameFQDN →
        (crt = .CNAME ∨ ert = .CNAME) →
        (ert = .A ∨ ert = .AAAA ∨ crt = .A ∨ crt = .AAAA) →
        (⟨String.intercalate "\n" msgs,
          .delete a.resourceGroup zone.name (lastName (keyRecords dc k) "") ert⟩ :
            Correction) ∈ ds) := by
  have hni : (changedGroups dc (postProcessRecords ex)).isEmpty = false :=
    ne_nil_isEmpty_false _ (List.ne_nil_of_mem hk)
  have hgdc := gdc_eq_planLoop a dc zone ex hz hex hni
  have hu : (k, msgs, keyRecords dc k) ∈
      updatesFor dc (changedGroups dc (postProcessRecords ex)) :=
    List.mem_map.mpr ⟨(k, msgs), hk, rfl⟩
  rw [hgdc] at hok
  obtain ⟨gs, pre, post, hpk, hcs⟩ :=
    planLoop_mem a zone (fetchRecordSets a zone.name) _ [] cs
      (k, msgs, keyRecords dc k) hok hu
  obtain ⟨rrset0, rt, ds, hrn, hcd, hgs⟩ :=
    planKey_upsert_decomp a zone (fetchRecordSets a zone.name)
      (String.intercalate "\n" msgs) k (keyRecords dc k) gs hrecs hpk
  have hnrt : nativeToRecordType k.type = .ok rt :=
    recordToNative_type k (keyRecords dc k) rrset0 rt hrn
  obtain ⟨hsound, hcomplete⟩ :=
    conflictDeletes_ok_shape a.resourceGroup zone.name (lastName (keyRecords dc k) "")
      (String.intercalate "\n" msgs) k rt hnrt (fetchRecordSets a zone.name) ds hcd
  refine ⟨pre, ds,
    ⟨String.intercalate "\n" msgs, .upsert a.resourceGroup zone.name
      (lastName (keyRecords dc k) "") rt
      { rrset0 with ttl := lastTTL (keyRecords dc k) rrset0.ttl }⟩,
    post, ?_, hsound, ⟨rt, _, rfl⟩, ?_⟩
  · rw [hcs, hgs]
    simp
  · intro r hr ert crt hert hcrt hfq hcn hadd
    have hceq : crt = rt := by
      rw [hnrt] at hcrt; injection hcrt with hh; exact hh.symm
    subst hceq
    exact hcomplete r hr ert hert hfq hcn hadd

/-- The desired configuration of the C2 witness: one CNAME at a name that
holds an existing A set. -/
def w2dc : DomainConfig := ⟨"example.com", [wRCCname]⟩

/-- The plan the C2 witness produces: the pure delete of the now-undesired A
key, then the conflict-clearing delete and the upsert of the CNAME key. -/
def w2cs : List Correction :=
  [⟨"will delete A host.example.com", .delete "rg" "example.com." "host" .A⟩,
   ⟨"will create CNAME host.example.com target.example.com.",
     .delete "rg" "example.com." "host" .A⟩,
   ⟨"will create CNAME host.example.com target.example.com.",
     .upsert "rg" "example.com." "host" .CNAME
       { name := "", type := "CNAME", fqdn := "", ttl := 300,
         cnameRecord := some ⟨"target.example.com."⟩ }⟩]

/-- Witness for C2: the CNAME-over-existing-A scenario, with the conflict
delete ordered strictly before the CNAME upsert. -/
theorem conflict_deletes_precede_upsert_witness :
    ∃ pre ds up post,
      w2cs = pre ++ ds ++ up :: post ∧
      (∀ c ∈ ds, ∃ ert, c = ⟨String.intercalate "\n"
          ["will create CNAME host.example.com target.example.com."],
        .delete "rg" wZone.name
          (lastName (keyRecords w2dc ⟨"host.example.com", "CNAME"⟩) "") ert⟩) ∧
      (∃ rt rs, up = ⟨String.intercalate "\n"
          ["will create CNAME host.example.com target.example.com."],
        .upsert "rg" wZone.name
          (lastName (keyRecords w2dc ⟨"host.example.com", "CNAME"⟩) "") rt rs⟩) ∧
      (∀ r ∈ fetchRecordSets wProv wZone.name, ∀ ert crt,
        azureRecordToRecordType r.type = .ok ert →
        nativeToRecordType "CNAME" = .ok crt →
        trimSuffixDot r.fqdn = "host.example.com" →
        (crt = .CNAME ∨ ert = .CNAME) →
        (ert = .A ∨ ert = .AAAA ∨ crt = .A ∨ crt = .AAAA) →
        (⟨String.intercalate "\n"
            ["will create CNAME host.example.com target.example.com."],
          .delete "rg" wZone.name
            (lastName (keyRecords w2dc ⟨"host.example.com", "CNAME"⟩) "") ert⟩ :
              Correction) ∈ ds) :=
  conflict_deletes_precede_upsert wProv w2dc wZone [wRCA]
    ⟨"host.example.com", "CNAME"⟩
    ["will create CNAME host.example.com target.example.com."] w2cs
    (by decide) (by decide) (by decide) (by decide) (by decide)

/-! Helper lemmas for the unsupported-type claim. -/

/-- The desired-record types the upsert payload builder `recordToNative`
handles; any other type hits its panicking `default:` branch. -/
def supportedRecordTypes : List String :=
  ["A", "AAAA", "CNAME", "NS", "PTR", "TXT", "MX", "SRV", "CAA"]

/-- Go `setTarget` leaves the type field alone. -/
lemma setTarget_type (rc : RecordConfig) (t : String) : (setTarget rc t).type = rc.type := rfl

/-- Go `setTargetTXTs` leaves the type field alone. -/
lemma setTargetTXTs_type (rc : RecordConfig) (v : List String) :
    (setTargetTXTs rc v).type = rc.type := rfl

/-- Go `setTargetMX` leaves the type field alone. -/
lemma setTargetMX_type (rc : RecordConfig) (p : Nat) (e : String) :
    (setTargetMX rc p e).type = rc.type := rfl

/-- Go `setTargetSRV` leaves the type field alone. -/
lemma setTargetSRV_type (rc : RecordConfig) (p w po : Nat) (t : String) :
    (setTargetSRV rc p w po t).type = rc.type := rfl

/-- Go `setTargetCAA` leaves the type field alone. -/
lemma setTargetCAA_type (rc : RecordConfig) (f : Nat) (tg v : String) :
    (setTargetCAA rc f tg v).type = rc.type := rfl

/-- The shared prelude of `nativeToRecords` stamps the internal type tag. -/
lemma baseRC_type (set : RecordSet) (origin ty : String) : (baseRC set origin ty).type = ty := rfl

/-- Every record produced by `nativeToRecords` carries one of the supported
internal types (SOA sets produce nothing). -/
lemma nativeToRecords_types (set : RecordSet) (origin : String) (l : List RecordConfig)
    (h : nativeToRecords set origin = .ok l) :
    ∀ r ∈ l, r.type ∈ supportedRecordTypes := by
  unfold nativeToRecords at h
  split at h
  all_goals
    first
    | exact Except.noConfusion h
    | (injection h with h2; subst h2;
       intro r hr;
       first
       | cases hr
       | (obtain ⟨x, hx, rfl⟩ := List.mem_map.mp hr;
          simp only [setTarget_type, setTargetTXTs_type, setTargetMX_type,
            setTargetSRV_type, setTargetCAA_type, baseRC_type];
          decide))
    | (split at h;
       all_goals
         first
         | exact Except.noConfusion h
         | (injection h with h2; subst h2; intro r hr;
            rcases List.mem_singleton.mp hr with rfl;
            simp only [setTarget_type, baseRC_type];
            decide))

/-- Every existing record collected from the fetched sets carries a
supported internal type. -/
lemma collectExisting_types (origin : String) :
    ∀ (sets : List RecordSet) (l : List RecordConfig),
      collectExisting origin sets = .ok l → ∀ r ∈ l, r.type ∈ supportedRecordTypes := by
  intro sets
  induction sets with
  | nil =>
    intro l h r hr
    injection h with h2
    rw [← h2] at hr
    cases hr
  | cons s rest ih =>
    intro l h r hr
    unfold collectExisting at h
    cases hn : nativeToRecords s origin with
    | error e => rw [hn] at h; cases h
    | ok rcs =>
      rw [hn] at h
      simp only [] at h
      cases hc : collectExisting origin rest with
      | error e => rw [hc] at h; cases h
      | ok more =>
        rw [hc] at h
        injection h with h2
        rw [← h2] at hr
        rcases List.mem_append.mp hr with h3 | h3
        · exact nativeToRecords_types s origin rcs hn r h3
        · exact ih more hc r h3

/-- Membership in the grouper worklist: a key is collected exactly when it
was already in the accumulator or is the key of some listed record. -/
lemma mem_groupKeysAux (k : RecordKey) :
    ∀ (l : List RecordConfig) (acc : List RecordKey),
      (k ∈ groupKeysAux acc l ↔ k ∈ acc ∨ ∃ x, x ∈ l ∧ rcKey x = k) := by
  intro l
  induction l with
  | nil => intro acc; simp [groupKeysAux]
  | cons rc rest ih =>
    intro acc
    simp only [groupKeysAux]
    rw [ih]
    by_cases hm : rcKey rc ∈ acc
    · rw [if_pos hm]
      constructor
      · rintro (h | ⟨x, hx, hk⟩)
        · exact Or.inl h
        · exact Or.inr ⟨x, List.mem_cons_of_mem rc hx, hk⟩
      · rintro (h | ⟨x, hx, hk⟩)
        · exact Or.inl h
        · rcases List.mem_cons.mp hx with rfl | h4
          · exact Or.inl (hk ▸ hm)
          · exact Or.inr ⟨x, h4, hk⟩
    · rw [if_neg hm]
      constructor
      · rintro (h | ⟨x, hx, hk⟩)
        · rcases List.mem_append.mp h with h4 | h4
          · exact Or.inl h4
          · exact Or.inr ⟨rc, List.mem_cons_self rc rest, (List.mem_singleton.mp h4).symm⟩
        · exact Or.inr ⟨x, List.mem_cons_of_mem rc hx, hk⟩
      · rintro (h | ⟨x, hx, hk⟩)
        · exact Or.inl (List.mem_append.mpr (Or.inl h))
        · rcases List.mem_cons.mp hx with rfl | h4
          · exact Or.inl (List.mem_append.mpr (Or.inr (List.mem_singleton.mpr hk.symm)))
          · exact Or.inr ⟨x, h4, hk⟩

/-- The key of a listed record is in the grouper output. -/
lemma rcKey_mem_groupKeys (rc : RecordConfig) (l : List RecordConfig) (h : rc ∈ l) :
    rcKey rc ∈ groupKeys l :=
  (mem_groupKeysAux (rcKey rc) l []).mpr (Or.inr ⟨rc, h, rfl⟩)

/-- A key in the grouper output is the key of some listed record. -/
lemma groupKeys_sub (k : RecordKey) (l : List RecordConfig) (h : k ∈ groupKeys l) :
    ∃ x, x ∈ l ∧ rcKey x = k :=
  ((mem_groupKeysAux k l []).mp h).resolve_left (by simp)

/-- A desired record whose key has no existing records is reported by the
differ as a create for its key. -/
lemma changedGroups_create_mem (dc : DomainConfig) (existing : List RecordConfig)
    (rc : RecordConfig) (hrc : rc ∈ dc.records)
    (hex : existing.filter (fun r => decide (rcKey r = rcKey rc)) = []) :
    (rcKey rc, describeCreate (keyRecords dc (rcKey rc))) ∈ changedGroups dc existing := by
  have hde : rc ∈ dc.records.filter (fun r => decide (rcKey r = rcKey rc)) :=
    List.mem_filter.mpr ⟨hrc, by simp⟩
  have hdene : (dc.records.filter (fun r => decide (rcKey r = rcKey rc))).isEmpty = false :=
    ne_nil_isEmpty_false _ (List.ne_nil_of_mem hde)
  have hnotex : rcKey rc ∉ groupKeys existing := by
    intro hmem
    obtain ⟨r, hr, hkey⟩ := groupKeys_sub (rcKey rc) existing hmem
    have hrf : r ∈ existing.filter (fun r => decide (rcKey r = rcKey rc)) :=
      List.mem_filter.mpr ⟨hr, by simp [hkey]⟩
    rw [hex] at hrf
    cases hrf
  have hkeys : rcKey rc ∈ changedKeysList dc existing := by
    unfold changedKeysList
    exact List.mem_append.mpr (Or.inr (List.mem_filter.mpr
      ⟨rcKey_mem_groupKeys rc dc.records hrc, by simp [hnotex]⟩))
  have hexe : (existing.filter (fun r => decide (rcKey r = rcKey rc))).isEmpty = true := by
    rw [hex]; rfl
  unfold changedGroups
  apply List.mem_filterMap.mpr
  refine ⟨rcKey rc, hkeys, ?_⟩
  unfold changeForKey
  simp only [hdene, hexe, Bool.false_eq_true, if_false, if_true]
  rfl

/-- An unsupported key type hits the panicking default branch of the
per-record switch of `recordToNative`. -/
lemma addNativeRecord_unsupported (ty : String) (rs : RecordSet) (rec : RecordConfig)
    (hty : ty ∉ supportedRecordTypes) :
    addNativeRecord ty rs rec = .error (.rtypeUnimplemented ty) := by
  unfold addNativeRecord
  split
  all_goals first
    | rfl
    | exact absurd (by decide) hty

/-- Building the upsert payload for a key of unsupported type from at least
one desired record panics. -/
lemma recordToNative_unsupported (k : RecordKey) (recs : List RecordConfig)
    (hne : recs ≠ []) (hty : k.type ∉ supportedRecordTypes) :
    recordToNative k recs = .error (.rtypeUnimplemented k.type) := by
  cases recs with
  | nil => exact absurd rfl hne
  | cons rec rest =>
    have h1 : buildNativeSet k.type (rec :: rest) (emptyNativeSet k.type) =
        .error (.rtypeUnimplemented k.type) := by
      unfold buildNativeSet
      rw [addNativeRecord_unsupported k.type _ rec hty]
    unfold recordToNative
    rw [h1]

/-- Claim C7: a desired record whose type is not one of the supported record
types makes `GetDomainCorrections` fail for the zone, with no corrections at
all — so no correction action can run for it. -/
theorem unsupported_desired_type_fatal (a : AzureDnsProvider) (dc : DomainConfig)
    (rc : RecordConfig) (hin : rc ∈ dc.records)
    (hty : rc.type ∉ supportedRecordTypes) :
    ∃ e, GetDomainCorrections a dc = ([], some e) := by
  cases ho : (GetDomainCorrections a dc).2 with
  | some e =>
    refine ⟨e, ?_⟩
    have h1 := gdc_snd_some_fst_nil a dc e ho
    rw [← h1, ← ho]
  | none =>
    exfalso
    cases hz : assocLookup a.zones dc.name with
    | none =>
      have h2 : (GetDomainCorrections a dc).2 = some (.errNoExist dc.name) := by
        simp [GetDomainCorrections, punycode, hz]
      rw [ho] at h2
      exact Option.noConfusion h2
    | some zone =>
      cases hex : collectExisting dc.name (fetchRecordSets a zone.name) with
      | error e2 =>
        have h2 : (GetDomainCorrections a dc).2 = some e2 := by
          simp [GetDomainCorrections, punycode, hz, planZone, hex]
        rw [ho] at h2
        exact Option.noConfusion h2
      | ok ex =>
        have hfil : ex.filter (fun r => decide (rcKey r = rcKey rc)) = [] := by
          cases hfe : ex.filter (fun r => decide (rcKey r = rcKey rc)) with
          | nil => rfl
          | cons r rest =>
            exfalso
            have hrmem : r ∈ ex.filter (fun r => decide (rcKey r = rcKey rc)) := by
              rw [hfe]; exact List.mem_cons_self r rest
            obtain ⟨hrex, hkeyb⟩ := List.mem_filter.mp hrmem
            have hkey : rcKey r = rcKey rc := of_decide_eq_true hkeyb
            have htype : r.type = rc.type := congrArg RecordKey.type hkey
            exact hty (htype ▸ collectExisting_types dc.name
              (fetchRecordSets a zone.name) ex hex r hrex)
        have hk : (rcKey rc, describeCreate (keyRecords dc (rcKey rc))) ∈
            changedGroups dc (postProcessRecords ex) :=
          changedGroups_create_mem dc ex rc hin hfil
        have hni : (changedGroups dc (postProcessRecords ex)).isEmpty = false :=
          ne_nil_isEmpty_false _ (List.ne_nil_of_mem hk)
        have hgdc := gdc_eq_planLoop a dc zone ex hz hex hni
        have hok2 : GetDomainCorrections a dc = ((GetDomainCorrections a dc).1, none) := by
          rw [← ho]
        rw [hgdc] at hok2
        have hu : (rcKey rc, describeCreate (keyRecords dc (rcKey rc)),
            keyRecords dc (rcKey rc)) ∈
            updatesFor dc (changedGroups dc (postProcessRecords ex)) :=
          List.mem_map.mpr ⟨(rcKey rc, describeCreate (keyRecords dc (rcKey rc))), hk, rfl⟩
        obtain ⟨gs, pre, post, hpk, _⟩ :=
          planLoop_mem a zone (fetchRecordSets a zone.name) _ [] _ _ hok2 hu
        have hne2 : keyRecords dc (rcKey rc) ≠ [] :=
          List.ne_nil_of_mem (List.mem_filter.mpr ⟨hin, by simp⟩)
        obtain ⟨rrset0, rt, ds, hrn, _, _⟩ :=
          planKey_upsert_decomp a zone (fetchRecordSets a zone.name) _ _ _ gs hne2 hpk
        rw [recordToNative_unsupported (rcKey rc) (keyRecords dc (rcKey rc)) hne2 hty] at hrn
        cases hrn

/-- Witness for C7: a desired SOA record (not buildable as an upsert) makes
the whole run fail with the unimplemented-type error and no corrections. -/
theorem unsupported_desired_type_fatal_witness :
    ∃ e, GetDomainCorrections wProv
      ⟨"example.com", [wRCA,
        { name := "@", nameFQDN := "example.com", type := "SOA",
          target := "x", ttl := 300 }]⟩ = ([], some e) :=
  unsupported_desired_type_fatal wProv
    ⟨"example.com", [wRCA,
      { name := "@", nameFQDN := "example.com", type := "SOA",
        target := "x", ttl := 300 }]⟩
    { name := "@", nameFQDN := "example.com", type := "SOA",
      target := "x", ttl := 300 }
    (by decide) (by decide)

end AzureDns
